import Mathlib

/-!
# client-inspect: the HTTP client whose connections are mirrored to a sink

A shallow embedding of `http/client.go` (`NewClient`, `NewClientWriter`,
`clientToWriter` and its two dial hooks `dialContext` and `dialTLSContext`).

Go strings are byte sequences.  A string is embedded as a Lean `String`, its
bytes being the characters of `String.data` (every character standing for the
byte of its code point); on ASCII text, the only text host names, ports and
the delimiters of a URL are made of, the two readings coincide.

The hooks call into the network, the TLS stack and the clock.  Those calls are
answered by an `Env` (one answer per call), and every effect of a hook is
recorded, in program order, in the `trace` of the `Run` it returns.
-/

namespace ClientInspect

/-! ## Package `strings` (the functions the program and `net/url` use) -/

namespace strings

/-- First index of `sub` in `s`, if any. -/
def index? : List Char → List Char → Option Nat
  | [], sub => if sub = [] then some 0 else none
  | c :: s, sub =>
    if sub.isPrefixOf (c :: s) then some 0
    else (index? s sub).map (· + 1)

/-- Last index of `sub` in `s`, if any. -/
def lastIndex? : List Char → List Char → Option Nat
  | [], sub => if sub = [] then some 0 else none
  | c :: s, sub =>
    match lastIndex? s sub with
    | some i => some (i + 1)
    | none => if sub.isPrefixOf (c :: s) then some 0 else none

/-- Go `strings.Index`: the index of the first instance of `sub` in `s`, or -1. -/
def Index (s sub : List Char) : Int :=
  match index? s sub with
  | some i => (i : Int)
  | none => -1

/-- Go `strings.LastIndex`: the index of the last instance of `sub` in `s`, or -1. -/
def LastIndex (s sub : List Char) : Int :=
  match lastIndex? s sub with
  | some i => (i : Int)
  | none => -1

/-- Go `strings.HasPrefix`. -/
def HasPrefix (s pre : List Char) : Bool := pre.isPrefixOf s

/-- Go `strings.HasSuffix`. -/
def HasSuffix (s suf : List Char) : Bool := suf.isSuffixOf s

/-- Go `strings.Count` of a one-byte string. -/
def Count (s : List Char) (c : Char) : Nat := s.count c

/-- Go `strings.Contains`. -/
def Contains (s sub : List Char) : Bool := (index? s sub).isSome

/-- Go `strings.Cut`: the text before and after the first instance of `sep`,
and whether `sep` was found. -/
def Cut (s sep : List Char) : List Char × List Char × Bool :=
  match index? s sep with
  | some i => (s.take i, s.drop (i + sep.length), true)
  | none => (s, [], false)

/-- Go `strings.Repeat` of a one-byte string. -/
def Repeat (c : Char) (count : Nat) : List Char := List.replicate count c

/-- Go `strings.ToLower` on ASCII text. -/
def ToLower (s : List Char) : List Char :=
  s.map fun c => if 65 ≤ c.toNat ∧ c.toNat ≤ 90 then Char.ofNat (c.toNat + 32) else c

end strings

/-- Go slice expression `s[:i]` on a string: a run-time panic (`none`) unless
`0 ≤ i ≤ len(s)`. -/
def sliceTo (s : List Char) (i : Int) : Option (List Char) :=
  if 0 ≤ i ∧ i ≤ (s.length : Int) then some (s.take i.toNat) else none

/-! ## Errors -/

/-- The causes of a `net/url` parse failure. -/
inductive UrlCause where
  | invalidControlCharacter
  | missingProtocolScheme
  | firstPathSegmentColon
  | missingBracket
  | invalidPort (colonPort : String)
  | escapeError (s : String)
  | invalidHostError (s : String)
  | invalidUserinfo
  deriving DecidableEq, Repr

/-- Go `error` values met by the dial hooks. -/
inductive Error where
  /-- `errors.New(text)`, and the errors of the network and TLS layers, by their text. -/
  | text (s : String)
  /-- `*url.Error` with operation `op` on `url`. -/
  | urlError (op : String) (url : String) (cause : UrlCause)
  deriving DecidableEq, Repr

/-! ## Package `net/url`: `url.Parse` -/

namespace url

inductive encoding where
  | encodePath
  | encodePathSegment
  | encodeHost
  | encodeZone
  | encodeUserPassword
  | encodeQueryComponent
  | encodeFragment
  deriving DecidableEq, Repr

/-- ASCII letter: `'a' <= c && c <= 'z' || 'A' <= c && c <= 'Z'`. -/
def isLetter (c : Char) : Bool :=
  (97 ≤ c.toNat && c.toNat ≤ 122) || (65 ≤ c.toNat && c.toNat ≤ 90)

/-- ASCII digit: `'0' <= c && c <= '9'`. -/
def isDigit (c : Char) : Bool := 48 ≤ c.toNat && c.toNat ≤ 57

def ishex (c : Char) : Bool :=
  (48 ≤ c.toNat && c.toNat ≤ 57) || (97 ≤ c.toNat && c.toNat ≤ 102) ||
    (65 ≤ c.toNat && c.toNat ≤ 70)

def unhex (c : Char) : Nat :=
  if 48 ≤ c.toNat ∧ c.toNat ≤ 57 then c.toNat - 48
  else if 97 ≤ c.toNat ∧ c.toNat ≤ 102 then c.toNat - 97 + 10
  else if 65 ≤ c.toNat ∧ c.toNat ≤ 70 then c.toNat - 65 + 10
  else 0

/-- Go `shouldEscape(c, mode)` for the two modes `unescape` asks it about,
`encodeHost` and `encodeZone`: letters, digits, the sub-delimiters
`!$&'()*+,;=`, then `:[]<>"` and the marks `-_.~` stay as they are. -/
def shouldEscapeHost (c : Char) : Bool :=
  if isLetter c || isDigit c then false
  else if c ∈ ['!', '$', '&', Char.ofNat 39, '(', ')', '*', '+', ',', ';', '=', ':', '[', ']',
      '<', '>', '"'] then false
  else if c ∈ ['-', '_', '.', '~'] then false
  else true

/-- First pass of Go `unescape`: the error it returns, if any. -/
def unescapeCheck (mode : encoding) : List Char → Option UrlCause
  | [] => none
  | c :: rest =>
    if c = '%' then
      match rest with
      | a :: b :: rest2 =>
        if !ishex a || !ishex b then some (.escapeError (String.mk [c, a, b]))
        else if mode = .encodeHost ∧ unhex a < 8 ∧ [c, a, b] ≠ ['%', '2', '5'] then
          some (.escapeError (String.mk [c, a, b]))
        else if mode = .encodeZone ∧ [c, a, b] ≠ ['%', '2', '5'] ∧ unhex a * 16 + unhex b ≠ 32 ∧
            shouldEscapeHost (Char.ofNat (unhex a * 16 + unhex b)) then
          some (.escapeError (String.mk [c, a, b]))
        else unescapeCheck mode rest2
      | _ => some (.escapeError (String.mk (c :: rest)))
    else if (mode = .encodeHost ∨ mode = .encodeZone) ∧ c.toNat < 128 ∧ shouldEscapeHost c then
      some (.invalidHostError (String.mk [c]))
    else unescapeCheck mode rest

/-- Second pass of Go `unescape`: `%XY` becomes the byte `XY`, and `+` a space
in query components.  (Go skips the pass when there is nothing to replace; the
pass then changes nothing.) -/
def unescapeDecode (mode : encoding) : List Char → List Char
  | [] => []
  | c :: rest =>
    if c = '%' then
      match rest with
      | a :: b :: rest2 => Char.ofNat (unhex a * 16 + unhex b) :: unescapeDecode mode rest2
      | _ => []
    else if c = '+' ∧ mode = .encodeQueryComponent then ' ' :: unescapeDecode mode rest
    else c :: unescapeDecode mode rest

/-- Go `unescape(s, mode)`. -/
def unescape (s : List Char) (mode : encoding) : Except UrlCause (List Char) :=
  match unescapeCheck mode s with
  | some e => .error e
  | none => .ok (unescapeDecode mode s)

/-- Go `stringContainsCTLByte`. -/
def stringContainsCTLByte (s : List Char) : Bool :=
  s.any fun b => b.toNat < 32 || b.toNat = 127

/-- Go `validOptionalPort`: empty, or `:` followed by digits. -/
def validOptionalPort (port : List Char) : Bool :=
  match port with
  | [] => true
  | c :: digits => c = ':' && digits.all fun b => !(b.toNat < 48 || b.toNat > 57)

/-- Go `validUserinfo`. -/
def validUserinfo (s : List Char) : Bool :=
  s.all fun r => isLetter r || isDigit r ||
    r ∈ ['-', '.', '_', ':', '~', '!', '$', '&', Char.ofNat 39, '(', ')', '*', '+', ',', ';',
      '=', '%', '@']

/-- The loop of Go `getScheme`, at index `i` with `rest = rawURL[i:]`. -/
def getSchemeLoop (rawURL : List Char) : Nat → List Char →
    Except UrlCause (List Char × List Char)
  | _, [] => .ok ([], rawURL)
  | i, c :: rest =>
    if isLetter c then getSchemeLoop rawURL (i + 1) rest
    else if isDigit c || c = '+' || c = '-' || c = '.' then
      if i = 0 then .ok ([], rawURL) else getSchemeLoop rawURL (i + 1) rest
    else if c = ':' then
      if i = 0 then .error .missingProtocolScheme
      else .ok (rawURL.take i, rawURL.drop (i + 1))
    else .ok ([], rawURL)

/-- Go `getScheme`: the scheme and what follows its colon. -/
def getScheme (rawURL : List Char) : Except UrlCause (List Char × List Char) :=
  getSchemeLoop rawURL 0 rawURL

/-- Go `parseHost`. -/
def parseHost (host : List Char) : Except UrlCause (List Char) :=
  if strings.HasPrefix host ['['] then
    match strings.lastIndex? host [']'] with
    | none => .error .missingBracket
    | some i =>
      let colonPort := host.drop (i + 1)
      if !validOptionalPort colonPort then .error (.invalidPort (String.mk colonPort))
      else
        match strings.index? (host.take i) ['%', '2', '5'] with
        | some zone =>
          match unescape (host.take zone) .encodeHost with
          | .error e => .error e
          | .ok host1 =>
            match unescape ((host.take i).drop zone) .encodeZone with
            | .error e => .error e
            | .ok host2 =>
              match unescape (host.drop i) .encodeHost with
              | .error e => .error e
              | .ok host3 => .ok (host1 ++ host2 ++ host3)
        | none => unescape host .encodeHost
  else
    match strings.lastIndex? host [':'] with
    | some i =>
      let colonPort := host.drop i
      if !validOptionalPort colonPort then .error (.invalidPort (String.mk colonPort))
      else unescape host .encodeHost
    | none => unescape host .encodeHost

/-- Go `*url.Userinfo`. -/
structure Userinfo where
  username : String
  password : String
  passwordSet : Bool
  deriving DecidableEq, Repr

/-- Go `parseAuthority`. -/
def parseAuthority (authority : List Char) : Except UrlCause (Option Userinfo × List Char) :=
  let i := strings.lastIndex? authority ['@']
  let hostResult :=
    match i with
    | none => parseHost authority
    | some i => parseHost (authority.drop (i + 1))
  match hostResult with
  | .error e => .error e
  | .ok host =>
    match i with
    | none => .ok (none, host)
    | some i =>
      let userinfo := authority.take i
      if !validUserinfo userinfo then .error .invalidUserinfo
      else if !strings.Contains userinfo [':'] then
        match unescape userinfo .encodeUserPassword with
        | .error e => .error e
        | .ok u => .ok (some ⟨String.mk u, "", false⟩, host)
      else
        let (username, password, _) := strings.Cut userinfo [':']
        match unescape username .encodeUserPassword with
        | .error e => .error e
        | .ok u =>
          match unescape password .encodeUserPassword with
          | .error e => .error e
          | .ok p => .ok (some ⟨String.mk u, String.mk p, true⟩, host)

/-- Go `url.URL`, without the fields `RawPath`, `RawFragment` and `OmitHost`
(hints for re-encoding, which no caller here reads). -/
structure URL where
  Scheme : List Char := []
  Opaque : List Char := []
  User : Option Userinfo := none
  Host : List Char := []
  Path : List Char := []
  ForceQuery : Bool := false
  RawQuery : List Char := []
  Fragment : List Char := []
  deriving DecidableEq, Repr

/-- Go `parse(rawURL, viaRequest = false)`. -/
def parse (rawURL : List Char) : Except UrlCause URL :=
  if stringContainsCTLByte rawURL then .error .invalidControlCharacter
  else if rawURL = ['*'] then .ok { Path := ['*'] }
  else
    match getScheme rawURL with
    | .error e => .error e
    | .ok (scheme0, rest0) =>
      let scheme := strings.ToLower scheme0
      let (rest, forceQuery, rawQuery) :=
        if strings.HasSuffix rest0 ['?'] ∧ strings.Count rest0 '?' = 1 then
          (rest0.take (rest0.length - 1), true, [])
        else
          let (r, q, _) := strings.Cut rest0 ['?']
          (r, false, q)
      let u : URL := { Scheme := scheme, ForceQuery := forceQuery, RawQuery := rawQuery }
      if strings.HasPrefix rest ['/'] = false ∧ scheme ≠ [] then .ok { u with Opaque := rest }
      else if strings.HasPrefix rest ['/'] = false ∧
          strings.Contains (strings.Cut rest ['/']).1 [':'] then
        .error .firstPathSegmentColon
      else if (scheme ≠ [] ∨ strings.HasPrefix rest ['/', '/', '/'] = false) ∧
          strings.HasPrefix rest ['/', '/'] then
        let authority0 := rest.drop 2
        let (authority, path) :=
          match strings.index? authority0 ['/'] with
          | some i => (authority0.take i, authority0.drop i)
          | none => (authority0, [])
        match parseAuthority authority with
        | .error e => .error e
        | .ok (user, host) =>
          match unescape path .encodePath with
          | .error e => .error e
          | .ok p => .ok { u with User := user, Host := host, Path := p }
      else
        match unescape rest .encodePath with
        | .error e => .error e
        | .ok p => .ok { u with Path := p }

/-- Go `url.Parse`: the fragment is cut off, the rest parsed, the fragment
unescaped. -/
def Parse (rawURL : String) : Except Error URL :=
  let (u, frag, _) := strings.Cut rawURL.data ['#']
  match parse u with
  | .error e => .error (.urlError "parse" (String.mk u) e)
  | .ok url =>
    if frag = [] then .ok url
    else
      match unescape frag .encodeFragment with
      | .error e => .error (.urlError "parse" rawURL e)
      | .ok f => .ok { url with Fragment := f }

end url

/-! ## The world around the hooks -/

/-- Go `time.Duration`: a count of nanoseconds. -/
abbrev Duration := Int

/-- Go `time.Second`. -/
def Second : Duration := 1000000000

/-- Go `io.Writer`, the sink: a writer is known by its handle. -/
structure Writer where
  handle : Nat
  deriving DecidableEq, Repr

/-- Go `os.Stderr`. -/
def Stderr : Writer := ⟨2⟩

/-- Go `net.Dialer` (the fields the program sets). -/
structure Dialer where
  Timeout : Duration := 0
  KeepAlive : Duration := 0
  deriving DecidableEq, Repr

/-- Go `tls.Config` (the fields the program reads or sets). -/
structure TLSConfig where
  ServerName : String := ""
  InsecureSkipVerify : Bool := false
  deriving DecidableEq, Repr

/-- Go `net.Conn` values the hooks handle. -/
inductive Conn where
  /-- A connection opened by the dialer. -/
  | plain (id : Nat)
  /-- The value of `tls.Client(conn, cfg)`. -/
  | tlsClient (conn : Conn) (cfg : TLSConfig)
  /-- The value of `spy.WrapConnection(conn, w)`. -/
  | spy (conn : Conn) (w : Writer)
  deriving DecidableEq, Repr

/-- What the receive `<-errc` of the handshake race finds first: the value sent
by the one-second timer, or the value sent by the goroutine that ran
`tlsConn.Handshake()` (its error, `none` standing for `nil`). -/
inductive Race where
  | timer
  | handshake (err : Option Error)
  deriving DecidableEq, Repr

/-- The value received from `errc`: the timer sends
`errors.New("TLS handshake timeout")`, the goroutine sends the handshake's `err`. -/
def Race.received : Race → Option Error
  | .timer => some (.text "TLS handshake timeout")
  | .handshake err => err

/-- The answers of the outside world to the calls of one hook invocation
(the context `ctx` is part of the world: it only reaches `dialer.DialContext`). -/
structure Env where
  /-- `dialer.DialContext(ctx, network, address)`. -/
  DialContext : Dialer → String → String → Except Error Conn
  /-- The race between the timer and `tlsConn.Handshake()`. -/
  race : Conn → Race
  /-- `tlsConn.VerifyHostname(name)`. -/
  VerifyHostname : Conn → String → Option Error

/-- The effects of a hook, as they happen. -/
inductive Event where
  | dial (dialer : Dialer) (network address : String)
  | handshake (tlsConn : Conn)
  | verifyHostname (tlsConn : Conn) (name : String)
  | close (c : Conn)
  | write (w : Writer) (p : String)
  | wrapConnection (c : Conn) (w : Writer)
  deriving DecidableEq, Repr

/-- How a Go computation ends: with a value, or in a run-time panic. -/
inductive Result (α : Type) where
  | ret (a : α)
  | panic
  deriving DecidableEq, Repr

/-- A computation that was run: its effects in order, and how it ended. -/
structure Run (α : Type) where
  trace : List Event
  result : Result α
  deriving DecidableEq, Repr

/-- Sequencing: the effects of `m`, then those of `f`, unless `m` panicked. -/
def Run.bind {α β : Type} (m : Run α) (f : α → Run β) : Run β :=
  match m.result with
  | .ret a => ⟨m.trace ++ (f a).trace, (f a).result⟩
  | .panic => ⟨m.trace, .panic⟩

instance : Monad Run where
  pure a := ⟨[], .ret a⟩
  bind := Run.bind

/-- One effect. -/
def effect (e : Event) : Run Unit := ⟨[e], .ret ()⟩

/-- `s[:i]` as a computation. -/
def slice (s : List Char) (i : Int) : Run (List Char) :=
  match sliceTo s i with
  | some t => ⟨[], .ret t⟩
  | none => ⟨[], .panic⟩

/-- Modelled from the spec: `spy.WrapConnection` of the repository's package
`net`, whose source is not at hand; the spec gives it as
`wrap(connection, sink) -> Connection`, a connection of the same semantics
that copies all bytes transferred to the sink. -/
def WrapConnection (c : Conn) (w : Writer) : Run Conn :=
  ⟨[.wrapConnection c w], .ret (.spy c w)⟩

/-! ## `http/client.go` -/

/-- The text of `fmt.Fprintf(writer, "\n%s\n\n", strings.Repeat("-", 80))`. -/
def separator : String := String.mk (['\n'] ++ strings.Repeat '-' 80 ++ ['\n', '\n'])

/-- A dial hook of `http.Transport`: from (the context and) the network and
the address to a connection or an error. -/
abbrev DialHook := Env → String → String → Run (Except Error Conn)

/-- The closure `dialContext` of `clientToWriter`. -/
def dialContext (dialer : Dialer) (writer : Writer) : DialHook :=
  fun env network address => do
    effect (.dial dialer network address)
    match env.DialContext dialer network address with
    | .error err => return .error err
    | .ok c =>
      effect (.write writer separator)
      let spied ← WrapConnection c writer
      return .ok spied

/-- The closure `dialTLSContext` of `clientToWriter`. -/
def dialTLSContext (dialer : Dialer) (writer : Writer) : DialHook :=
  fun env network address => do
    effect (.dial dialer network address)
    match env.DialContext dialer network address with
    | .error err => return .error err
    | .ok plainConn =>
      let cfg : TLSConfig := {}
      match url.Parse ("https://" ++ address) with
      | .error err => return .error err
      | .ok u =>
        let serverName ← slice u.Host (strings.LastIndex u.Host [':'])
        let cfg := { cfg with ServerName := String.mk serverName }
        let tlsConn := Conn.tlsClient plainConn cfg
        effect (.handshake tlsConn)
        match (env.race tlsConn).received with
        | some err =>
          effect (.close plainConn)
          return .error err
        | none =>
          if !cfg.InsecureSkipVerify then
            effect (.verifyHostname tlsConn cfg.ServerName)
            match env.VerifyHostname tlsConn cfg.ServerName with
            | some err =>
              effect (.close plainConn)
              return .error err
            | none =>
              effect (.write writer separator)
              let spied ← WrapConnection tlsConn writer
              return .ok spied
          else
            effect (.write writer separator)
            let spied ← WrapConnection tlsConn writer
            return .ok spied

/-- Go `http.Transport` (the fields the program sets, and `TLSClientConfig`). -/
structure Transport where
  DisableCompression : Bool := false
  TLSHandshakeTimeout : Duration := 0
  ResponseHeaderTimeout : Duration := 0
  ExpectContinueTimeout : Duration := 0
  TLSClientConfig : Option TLSConfig := none
  DialContext : Option DialHook := none
  DialTLSContext : Option DialHook := none

/-- Go `http.Client`. -/
structure Client where
  Transport : Transport

/-- The dialer the hooks close over: lines 37-42 of `clientToWriter`. -/
def dialerOrDefault (dialer : Option Dialer) : Dialer :=
  match dialer with
  | none => { Timeout := 30 * Second, KeepAlive := 30 * Second }
  | some d => d

/-- The transport the hooks are installed on: lines 44-51 of `clientToWriter`. -/
def transportOrDefault (transport : Option Transport) : Transport :=
  match transport with
  | none =>
    { DisableCompression := true
      TLSHandshakeTimeout := 10 * Second
      ResponseHeaderTimeout := 10 * Second
      ExpectContinueTimeout := 1 * Second }
  | some t => t

def clientToWriter (dialer : Option Dialer) (transport : Option Transport) (writer : Writer) :
    Client :=
  let dialer := dialerOrDefault dialer
  let transport := transportOrDefault transport
  let transport :=
    { transport with
      DialContext := some (dialContext dialer writer)
      DialTLSContext := some (dialTLSContext dialer writer) }
  { Transport := transport }

def NewClient (dialer : Option Dialer) (transport : Option Transport) : Client :=
  clientToWriter dialer transport Stderr

def NewClientWriter (dialer : Option Dialer) (transport : Option Transport) (writer : Writer) :
    Client :=
  clientToWriter dialer transport writer

/-- The connection `tls.Client(plainConn, cfg)` of the TLS dial hook, `cfg`
being a new `tls.Config` with `ServerName` set to `serverName`. -/
abbrev tlsOver (plainConn : Conn) (serverName : List Char) : Conn :=
  .tlsClient plainConn { ServerName := String.mk serverName }

/-- A byte of a host name: a letter, a digit, a hyphen or a dot. -/
def isHostNameByte (c : Char) : Bool :=
  url.isLetter c || url.isDigit c || c = '-' || c = '.'

/-- A byte of `host:port`: a byte of a host name, or the colon. -/
def isHostPortByte (c : Char) : Bool := isHostNameByte c || c = ':'

/-! ## Worlds to run the hooks in -/

/-- A reachable server that completes the handshake in time and holds a
certificate for `example.com` only. -/
def exampleServer : Env where
  DialContext := fun _ _ _ => .ok (.plain 1)
  race := fun _ => .handshake none
  VerifyHostname := fun _ name =>
    if name = "example.com" then none
    else some (.text "x509: certificate is valid for example.com")

/-- A reachable server that does not answer the handshake within the second. -/
def slowServer : Env where
  DialContext := fun _ _ _ => .ok (.plain 1)
  race := fun _ => .timer
  VerifyHostname := fun _ _ => none

/-- No server: the dial is refused. -/
def noServer : Env where
  DialContext := fun _ _ _ => .error (.text "connect: connection refused")
  race := fun _ => .timer
  VerifyHostname := fun _ _ => none

/-- A host reachable both by TCP and on the raw IP network `ip4:1`. The dialer
takes an address without a port only on the raw IP network, whose addresses
carry none; elsewhere such an address is refused before any connection is made. -/
def rawIPHost : Env where
  DialContext := fun _ network address =>
    if network = "ip4:1" then .ok (.plain 1)
    else if ':' ∈ address.data then .ok (.plain 1)
    else .error (.text "dial: missing port in address")
  race := fun _ => .handshake none
  VerifyHostname := fun _ _ => none

/-! ## The two hooks, path by path -/

theorem dialContext_run (dialer : Dialer) (writer : Writer) (env : Env) (network address : String) :
    dialContext dialer writer env network address =
      match env.DialContext dialer network address with
      | .error err => ⟨[.dial dialer network address], .ret (.error err)⟩
      | .ok c =>
        ⟨[.dial dialer network address, .write writer separator, .wrapConnection c writer],
          .ret (.ok (.spy c writer))⟩ := by
  unfold dialContext
  cases env.DialContext dialer network address <;> rfl

theorem dialTLSContext_run (dialer : Dialer) (writer : Writer) (env : Env)
    (network address : String) :
    dialTLSContext dialer writer env network address =
      match env.DialContext dialer network address with
      | .error err => ⟨[.dial dialer network address], .ret (.error err)⟩
      | .ok plainConn =>
        match url.Parse ("https://" ++ address) with
        | .error err => ⟨[.dial dialer network address], .ret (.error err)⟩
        | .ok u =>
          match sliceTo u.Host (strings.LastIndex u.Host [':']) with
          | none => ⟨[.dial dialer network address], .panic⟩
          | some serverName =>
            match (env.race (tlsOver plainConn serverName)).received with
            | some err =>
              ⟨[.dial dialer network address, .handshake (tlsOver plainConn serverName),
                  .close plainConn],
                .ret (.error err)⟩
            | none =>
              match env.VerifyHostname (tlsOver plainConn serverName) (String.mk serverName) with
              | some err =>
                ⟨[.dial dialer network address, .handshake (tlsOver plainConn serverName),
                    .verifyHostname (tlsOver plainConn serverName) (String.mk serverName),
                    .close plainConn],
                  .ret (.error err)⟩
              | none =>
                ⟨[.dial dialer network address, .handshake (tlsOver plainConn serverName),
                    .verifyHostname (tlsOver plainConn serverName) (String.mk serverName),
                    .write writer separator, .wrapConnection (tlsOver plainConn serverName) writer],
                  .ret (.ok (.spy (tlsOver plainConn serverName) writer))⟩ := by
  unfold dialTLSContext
  cases env.DialContext dialer network address with
  | error err => rfl
  | ok plainConn =>
    cases url.Parse ("https://" ++ address) with
    | error err => rfl
    | ok u =>
      cases hs : sliceTo u.Host (strings.LastIndex u.Host [':']) with
      | none => simp [bind, Run.bind, effect, slice, hs]
      | some serverName =>
        cases hr : (env.race (tlsOver plainConn serverName)).received with
        | some err => simp [bind, Run.bind, effect, slice, hs, hr, pure]
        | none =>
          cases hv : env.VerifyHostname (tlsOver plainConn serverName) (String.mk serverName) with
          | some err => simp [bind, Run.bind, effect, slice, hs, hr, hv, pure]
          | none => simp [bind, Run.bind, effect, slice, hs, hr, hv, pure, WrapConnection]

/-! ## `url.Parse` on `https://host:port` -/

theorem hostPortByte_cases {c : Char} (hc : isHostPortByte c = true) :
    (97 ≤ c.toNat ∧ c.toNat ≤ 122) ∨ (65 ≤ c.toNat ∧ c.toNat ≤ 90) ∨
      (48 ≤ c.toNat ∧ c.toNat ≤ 57) ∨ c = '-' ∨ c = '.' ∨ c = ':' := by
  simp [isHostPortByte, isHostNameByte, url.isLetter, url.isDigit] at hc
  tauto

theorem hostPortByte_ne {c d : Char} (hc : isHostPortByte c = true)
    (hd : isHostPortByte d = false) : c ≠ d := by
  rintro rfl
  simp [hd] at hc

theorem hostPortByte_not_ctl {c : Char} (hc : isHostPortByte c = true) :
    ¬ (c.toNat < 32 ∨ c.toNat = 127) := by
  rcases hostPortByte_cases hc with h | h | h | rfl | rfl | rfl
  · omega
  · omega
  · omega
  · decide
  · decide
  · decide

theorem hostPortByte_not_escaped {c : Char} (hc : isHostPortByte c = true) :
    url.shouldEscapeHost c = false := by
  rcases hostPortByte_cases hc with h | h | h | rfl | rfl | rfl
  · simp [url.shouldEscapeHost, url.isLetter, h]
  · simp [url.shouldEscapeHost, url.isLetter, h]
  · simp [url.shouldEscapeHost, url.isDigit, h]
  · decide
  · decide
  · decide

theorem index?_single_none {c : Char} {s : List Char} (h : c ∉ s) :
    strings.index? s [c] = none := by
  induction s with
  | nil => simp [strings.index?]
  | cons x xs ih =>
    have hx : c ≠ x := fun e => h (e ▸ List.mem_cons_self _ _)
    have hxs : c ∉ xs := fun e => h (List.mem_cons_of_mem _ e)
    simp [strings.index?, List.isPrefixOf, hx, ih hxs]

theorem lastIndex?_single_none {c : Char} {s : List Char} (h : c ∉ s) :
    strings.lastIndex? s [c] = none := by
  induction s with
  | nil => simp [strings.lastIndex?]
  | cons x xs ih =>
    have hx : c ≠ x := fun e => h (e ▸ List.mem_cons_self _ _)
    have hxs : c ∉ xs := fun e => h (List.mem_cons_of_mem _ e)
    simp [strings.lastIndex?, List.isPrefixOf, hx, ih hxs]

theorem lastIndex?_before_tail {c : Char} (host tail : List Char) (h : c ∉ tail) :
    strings.lastIndex? (host ++ c :: tail) [c] = some host.length := by
  induction host with
  | nil => simp [strings.lastIndex?, List.isPrefixOf, lastIndex?_single_none h]
  | cons x xs ih => simp [strings.lastIndex?, ih]

theorem unescapeCheck_host_none {s : List Char}
    (h : ∀ c ∈ s, isHostPortByte c = true) : url.unescapeCheck .encodeHost s = none := by
  induction s with
  | nil => simp [url.unescapeCheck]
  | cons x xs ih =>
    have hx := h x (List.mem_cons_self _ _)
    have hne : x ≠ '%' := hostPortByte_ne hx (by decide)
    have hxs : ∀ c ∈ xs, isHostPortByte c = true := fun c hc => h c (List.mem_cons_of_mem _ hc)
    unfold url.unescapeCheck
    simp [hne, hostPortByte_not_escaped hx, ih hxs]

theorem unescapeDecode_host_id {s : List Char}
    (h : ∀ c ∈ s, isHostPortByte c = true) : url.unescapeDecode .encodeHost s = s := by
  induction s with
  | nil => simp [url.unescapeDecode]
  | cons x xs ih =>
    have hx := h x (List.mem_cons_self _ _)
    have hne : x ≠ '%' := hostPortByte_ne hx (by decide)
    have hxs : ∀ c ∈ xs, isHostPortByte c = true := fun c hc => h c (List.mem_cons_of_mem _ hc)
    unfold url.unescapeDecode
    simp [hne, ih hxs]

theorem hostPort_not_mem {s : List Char} (h : ∀ c ∈ s, isHostPortByte c = true) {d : Char}
    (hd : isHostPortByte d = false) : d ∉ s :=
  fun hmem => hostPortByte_ne (h d hmem) hd rfl

theorem validOptionalPort_digits {port : List Char} (h : ∀ c ∈ port, url.isDigit c = true) :
    url.validOptionalPort (':' :: port) = true := by
  simp only [url.validOptionalPort, decide_True, Bool.true_and, List.all_eq_true]
  intro c hc
  have := h c hc
  simp [url.isDigit] at this
  simp
  omega

theorem hasPrefix_single_false {s : List Char} (h : ∀ c ∈ s, isHostPortByte c = true)
    {d : Char} (hd : isHostPortByte d = false) : strings.HasPrefix s [d] = false := by
  cases s with
  | nil => simp [strings.HasPrefix, List.isPrefixOf]
  | cons x xs =>
    have hx : d ≠ x := fun e => hostPortByte_ne (h x (List.mem_cons_self _ _)) hd e.symm
    simp [strings.HasPrefix, List.isPrefixOf, hx]

theorem hostPort_bytes {host port : List Char}
    (hhost : ∀ c ∈ host, isHostNameByte c = true) (hport : ∀ c ∈ port, url.isDigit c = true) :
    ∀ c ∈ host ++ ':' :: port, isHostPortByte c = true := by
  intro c hc
  simp only [List.mem_append, List.mem_cons] at hc
  rcases hc with hc | rfl | hc
  · simp [isHostPortByte, hhost c hc]
  · decide
  · simp [isHostPortByte, isHostNameByte, hport c hc]

theorem unescape_host_port {s : List Char} (h : ∀ c ∈ s, isHostPortByte c = true) :
    url.unescape s .encodeHost = .ok s := by
  simp [url.unescape, unescapeCheck_host_none h, unescapeDecode_host_id h]

theorem parseHost_host_port (host port : List Char)
    (hhost : ∀ c ∈ host, isHostNameByte c = true) (hport : ∀ c ∈ port, url.isDigit c = true) :
    url.parseHost (host ++ ':' :: port) = .ok (host ++ ':' :: port) := by
  have hall := hostPort_bytes hhost hport
  have hcolon : ':' ∉ port := by
    intro hmem
    have := hport _ hmem
    revert this
    decide
  unfold url.parseHost
  simp [hasPrefix_single_false hall (d := '[') (by decide), lastIndex?_before_tail host port hcolon,
    validOptionalPort_digits hport, unescape_host_port hall]

theorem parseAuthority_host_port (host port : List Char)
    (hhost : ∀ c ∈ host, isHostNameByte c = true) (hport : ∀ c ∈ port, url.isDigit c = true) :
    url.parseAuthority (host ++ ':' :: port) = .ok (none, host ++ ':' :: port) := by
  have hall := hostPort_bytes hhost hport
  unfold url.parseAuthority
  simp [lastIndex?_single_none (hostPort_not_mem hall (d := '@') (by decide)),
    parseHost_host_port host port hhost hport]

theorem parse_host_port (host port : List Char)
    (hhost : ∀ c ∈ host, isHostNameByte c = true) (hport : ∀ c ∈ port, url.isDigit c = true) :
    url.parse ('h' :: 't' :: 't' :: 'p' :: 's' :: ':' :: '/' :: '/' :: (host ++ ':' :: port)) =
      .ok { Scheme := ['h', 't', 't', 'p', 's'], Host := host ++ ':' :: port } := by
  have hall := hostPort_bytes hhost hport
  have hctl : url.stringContainsCTLByte
      ('h' :: 't' :: 't' :: 'p' :: 's' :: ':' :: '/' :: '/' :: (host ++ ':' :: port)) = false := by
    have htail : ∀ c ∈ host ++ ':' :: port, ¬ (c.toNat < 32 ∨ c.toNat = 127) :=
      fun c hc => hostPortByte_not_ctl (hall c hc)
    simp only [url.stringContainsCTLByte, List.any_cons, Bool.or_eq_false_iff]
    refine ⟨by decide, by decide, by decide, by decide, by decide, by decide, by decide,
      by decide, ?_⟩
    rw [List.any_eq_false]
    intro c hc
    simpa using htail c hc
  have hscheme : url.getScheme
      ('h' :: 't' :: 't' :: 'p' :: 's' :: ':' :: '/' :: '/' :: (host ++ ':' :: port)) =
      .ok (['h', 't', 't', 'p', 's'], '/' :: '/' :: (host ++ ':' :: port)) := rfl
  have hq : '?' ∉ '/' :: '/' :: (host ++ ':' :: port) := by
    have := hostPort_not_mem hall (d := '?') (by decide)
    simp only [List.mem_cons, not_or]
    exact ⟨by decide, by decide, this⟩
  have hcount : strings.Count ('/' :: '/' :: (host ++ ':' :: port)) '?' = 0 :=
    List.count_eq_zero.mpr hq
  have hcut : strings.Cut ('/' :: '/' :: (host ++ ':' :: port)) ['?'] =
      ('/' :: '/' :: (host ++ ':' :: port), [], false) := by
    simp only [strings.Cut, index?_single_none hq]
  have hlower : strings.ToLower ['h', 't', 't', 'p', 's'] = ['h', 't', 't', 'p', 's'] := by
    decide
  have hslash : strings.index? (host ++ ':' :: port) ['/'] = none :=
    index?_single_none (hostPort_not_mem hall (d := '/') (by decide))
  have hpath : url.unescape [] .encodePath = .ok [] := rfl
  unfold url.parse
  simp [hctl, hscheme, hcount, hcut, hlower, strings.HasPrefix, List.isPrefixOf, hslash,
    parseAuthority_host_port host port hhost hport, hpath]

theorem Parse_host_port (host port : String)
    (hhost : ∀ c ∈ host.data, isHostNameByte c = true)
    (hport : ∀ c ∈ port.data, url.isDigit c = true) :
    url.Parse ("https://" ++ (host ++ ":" ++ port)) =
      .ok { Scheme := ['h', 't', 't', 'p', 's'], Host := host.data ++ ':' :: port.data } := by
  have hall := hostPort_bytes hhost hport
  have hdata : ("https://" ++ (host ++ ":" ++ port)).data =
      'h' :: 't' :: 't' :: 'p' :: 's' :: ':' :: '/' :: '/' :: (host.data ++ ':' :: port.data) := by
    simp [String.data_append]
  have hfrag : '#' ∉
      'h' :: 't' :: 't' :: 'p' :: 's' :: ':' :: '/' :: '/' :: (host.data ++ ':' :: port.data) := by
    have := hostPort_not_mem hall (d := '#') (by decide)
    simp only [List.mem_cons, not_or]
    exact ⟨by decide, by decide, by decide, by decide, by decide, by decide, by decide,
      by decide, this⟩
  unfold url.Parse
  simp only [hdata, strings.Cut, index?_single_none hfrag, parse_host_port _ _ hhost hport]
  simp

theorem serverName_host_port (host port : List Char)
    (hport : ∀ c ∈ port, url.isDigit c = true) :
    sliceTo (host ++ ':' :: port) (strings.LastIndex (host ++ ':' :: port) [':']) = some host := by
  have hcolon : ':' ∉ port := by
    intro hmem
    have := hport _ hmem
    revert this
    decide
  simp [strings.LastIndex, lastIndex?_before_tail host port hcolon, sliceTo]
  omega

/-! ## The TLS dial hook around the address parse -/

/-- Past the address parse, every error return of the TLS dial hook has closed
the plain connection. -/
theorem error_after_dial_closes_unless_parse_fails (dialer : Dialer) (writer : Writer)
    (env : Env) (network address : String) (plainConn : Conn) (u : url.URL) (err : Error)
    (hdial : env.DialContext dialer network address = .ok plainConn)
    (hparse : url.Parse ("https://" ++ address) = .ok u)
    (h : (dialTLSContext dialer writer env network address).result = .ret (.error err)) :
    Event.close plainConn ∈ (dialTLSContext dialer writer env network address).trace := by
  rw [dialTLSContext_run] at h ⊢
  simp only [hdial, hparse] at h ⊢
  split at h <;> try (split at h <;> try split at h)
  all_goals simp_all

/-- On an address `url.Parse` rejects, the TLS dial hook returns the parse
error right after the dial. -/
theorem parse_failure_never_closes (dialer : Dialer) (writer : Writer)
    (env : Env) (network address : String) (plainConn : Conn) (err : Error)
    (hdial : env.DialContext dialer network address = .ok plainConn)
    (hparse : url.Parse ("https://" ++ address) = .error err) :
    dialTLSContext dialer writer env network address =
      ⟨[.dial dialer network address], .ret (.error err)⟩ := by
  rw [dialTLSContext_run]
  simp only [hdial, hparse]

/-- On an address whose parsed host has no colon, the TLS dial hook panics at
the slice. -/
theorem no_colon_panics (dialer : Dialer) (writer : Writer)
    (env : Env) (network address : String) (plainConn : Conn) (u : url.URL)
    (hdial : env.DialContext dialer network address = .ok plainConn)
    (hparse : url.Parse ("https://" ++ address) = .ok u)
    (hcolon : ':' ∉ u.Host) :
    dialTLSContext dialer writer env network address =
      ⟨[.dial dialer network address], .panic⟩ := by
  rw [dialTLSContext_run]
  simp [hdial, hparse, strings.LastIndex, lastIndex?_single_none hcolon, sliceTo]

/-- A byte that occurs in a string has a last occurrence. -/
theorem last_occurrence {c : Char} {s : List Char} (h : c ∈ s) :
    ∃ name tail, s = name ++ c :: tail ∧ c ∉ tail := by
  induction s with
  | nil => simp at h
  | cons x xs ih =>
    by_cases hxs : c ∈ xs
    · obtain ⟨name, tail, hs, ht⟩ := ih hxs
      exact ⟨x :: name, tail, by simp [hs], ht⟩
    · have hx : c = x := by
        rcases List.mem_cons.mp h with hx | hx
        · exact hx
        · exact absurd hx hxs
      exact ⟨[], xs, by simp [hx], hxs⟩

/-- The slice before the last colon. -/
theorem sliceTo_before_last_colon (name tail : List Char) (h : ':' ∉ tail) :
    sliceTo (name ++ ':' :: tail) (strings.LastIndex (name ++ ':' :: tail) [':']) =
      some name := by
  simp [strings.LastIndex, lastIndex?_before_tail name tail h, sliceTo]
  omega

/-- Without a colon there is no slice. -/
theorem sliceTo_no_colon {s : List Char} (h : ':' ∉ s) :
    sliceTo s (strings.LastIndex s [':']) = none := by
  simp [strings.LastIndex, lastIndex?_single_none h, sliceTo]

/-! ## The claims -/

/-- C1. For an address `host:port`, `host` a host name (letters, digits,
hyphens, dots) and `port` decimal digits, the TLS dial hook, once the plain
connection is open, sets `cfg.ServerName` to `host`: the handshake runs on
`tls.Client(plainConn, cfg)` with that `ServerName`, and any host name handed
to `VerifyHostname` is `host`. -/
theorem server_name_is_host (dialer : Dialer) (writer : Writer) (env : Env) (network : String)
    (host port : String) (plainConn : Conn)
    (hhost : ∀ c ∈ host.data, isHostNameByte c = true)
    (hport : ∀ c ∈ port.data, url.isDigit c = true)
    (hdial : env.DialContext dialer network (host ++ ":" ++ port) = .ok plainConn) :
    (url.Parse ("https://" ++ (host ++ ":" ++ port))).map (fun u => String.mk u.Host) =
      .ok (host ++ ":" ++ port) ∧
    (∃ rest, (dialTLSContext dialer writer env network (host ++ ":" ++ port)).trace =
      .dial dialer network (host ++ ":" ++ port) ::
        .handshake (.tlsClient plainConn { ServerName := host, InsecureSkipVerify := false }) ::
          rest) ∧
    (∀ c name, Event.verifyHostname c name ∈
        (dialTLSContext dialer writer env network (host ++ ":" ++ port)).trace →
      name = host) := by
  have hparse := Parse_host_port host port hhost hport
  have hname := serverName_host_port host.data port.data hport
  refine ⟨?_, ?_, ?_⟩
  · rw [hparse]
    simp only [Except.map]
    congr 1
    apply String.ext
    simp [String.data_append]
  · rw [dialTLSContext_run]
    simp only [hdial, hparse, hname]
    split
    · exact ⟨_, rfl⟩
    · split
      · exact ⟨_, rfl⟩
      · exact ⟨_, rfl⟩
  · intro c name
    rw [dialTLSContext_run]
    simp only [hdial, hparse, hname]
    split
    · simp
    · split
      · simp
      · simp

theorem server_name_is_host_witness :
    (url.Parse ("https://" ++ ("example.com" ++ ":" ++ "443"))).map (fun u => String.mk u.Host) =
      .ok ("example.com" ++ ":" ++ "443") ∧
    (∃ rest, (dialTLSContext {} ⟨7⟩ exampleServer "tcp" ("example.com" ++ ":" ++ "443")).trace =
      .dial {} "tcp" ("example.com" ++ ":" ++ "443") ::
        .handshake (.tlsClient (.plain 1)
          { ServerName := "example.com", InsecureSkipVerify := false }) :: rest) ∧
    (∀ c name, Event.verifyHostname c name ∈
        (dialTLSContext {} ⟨7⟩ exampleServer "tcp" ("example.com" ++ ":" ++ "443")).trace →
      name = "example.com") :=
  server_name_is_host {} ⟨7⟩ exampleServer "tcp" "example.com" "443" (.plain 1)
    (by decide) (by decide) rfl

/-- C3. A call of the plain dial hook or of the TLS dial hook that returns an
error has written nothing to any sink and has wrapped no connection. -/
theorem failed_dial_writes_nothing (hook : Dialer → Writer → DialHook)
    (hhook : hook = dialContext ∨ hook = dialTLSContext)
    (dialer : Dialer) (writer : Writer) (env : Env) (network address : String) (err : Error)
    (h : (hook dialer writer env network address).result = .ret (.error err)) :
    (∀ w p, Event.write w p ∉ (hook dialer writer env network address).trace) ∧
    (∀ c w, Event.wrapConnection c w ∉ (hook dialer writer env network address).trace) := by
  rcases hhook with rfl | rfl
  · rw [dialContext_run] at h ⊢
    split at h <;> simp_all
  · rw [dialTLSContext_run] at h ⊢
    split at h <;> try (split at h <;> try (split at h <;> try (split at h <;> try split at h)))
    all_goals simp_all

theorem failed_dial_writes_nothing_witness :
    ((∀ w p, Event.write w p ∉ (dialContext {} ⟨7⟩ noServer "tcp" "example.com:80").trace) ∧
      (∀ c w, Event.wrapConnection c w ∉
        (dialContext {} ⟨7⟩ noServer "tcp" "example.com:80").trace)) ∧
    ((∀ w p, Event.write w p ∉
        (dialTLSContext {} ⟨7⟩ exampleServer "tcp" "wronghost.test:443").trace) ∧
      (∀ c w, Event.wrapConnection c w ∉
        (dialTLSContext {} ⟨7⟩ exampleServer "tcp" "wronghost.test:443").trace)) :=
  ⟨failed_dial_writes_nothing dialContext (Or.inl rfl) {} ⟨7⟩ noServer "tcp" "example.com:80"
      (.text "connect: connection refused") rfl,
    failed_dial_writes_nothing dialTLSContext (Or.inr rfl) {} ⟨7⟩ exampleServer "tcp"
      "wronghost.test:443" (.text "x509: certificate is valid for example.com") rfl⟩

/-- C4. A successful call of either hook has, in this order, established the
connection (the dial; for TLS also the handshake and the verification of the
host name), written the separator once to its sink, and wrapped the
established connection with that same sink; the wrapped connection is what it
returns.  The separator is a newline, 80 dashes and two newlines: 83 bytes. -/
theorem separator_once_then_tee (dialer : Dialer) (writer : Writer) (env : Env)
    (network address : String) :
    separator.data = ['\n'] ++ List.replicate 80 '-' ++ ['\n', '\n'] ∧
    separator.data.length = 83 ∧
    (∀ conn, (dialContext dialer writer env network address).result = .ret (.ok conn) →
      ∃ c, env.DialContext dialer network address = .ok c ∧
        (dialContext dialer writer env network address).trace =
          [.dial dialer network address, .write writer separator, .wrapConnection c writer] ∧
        conn = .spy c writer) ∧
    (∀ conn, (dialTLSContext dialer writer env network address).result = .ret (.ok conn) →
      ∃ plainConn serverName,
        env.DialContext dialer network address = .ok plainConn ∧
        (env.race (tlsOver plainConn serverName)).received = none ∧
        env.VerifyHostname (tlsOver plainConn serverName) (String.mk serverName) = none ∧
        (dialTLSContext dialer writer env network address).trace =
          [.dial dialer network address, .handshake (tlsOver plainConn serverName),
            .verifyHostname (tlsOver plainConn serverName) (String.mk serverName),
            .write writer separator, .wrapConnection (tlsOver plainConn serverName) writer] ∧
        conn = .spy (tlsOver plainConn serverName) writer) := by
  refine ⟨rfl, rfl, ?_, ?_⟩
  · intro conn h
    rw [dialContext_run] at h ⊢
    split at h
    · simp at h
    · rename_i c hc
      exact ⟨c, hc, rfl, by simpa using h.symm⟩
  · intro conn h
    rw [dialTLSContext_run] at h ⊢
    split at h <;> try (split at h <;> try (split at h <;> try (split at h <;> try split at h)))
    all_goals first
      | (simp at h; done)
      | (rename_i plainConn hd _ u hp _ serverName hs _ hr _ hv
         exact ⟨plainConn, serverName, hd, hr, hv, rfl, by simpa using h.symm⟩)

theorem separator_once_then_tee_witness :
    (∃ c, exampleServer.DialContext {} "tcp" "example.com:80" = .ok c ∧
        (dialContext {} ⟨7⟩ exampleServer "tcp" "example.com:80").trace =
          [.dial {} "tcp" "example.com:80", .write ⟨7⟩ separator, .wrapConnection c ⟨7⟩] ∧
        Conn.spy (.plain 1) ⟨7⟩ = .spy c ⟨7⟩) ∧
    (∃ plainConn serverName,
        exampleServer.DialContext {} "tcp" "example.com:443" = .ok plainConn ∧
        (exampleServer.race (tlsOver plainConn serverName)).received = none ∧
        exampleServer.VerifyHostname (tlsOver plainConn serverName) (String.mk serverName) =
          none ∧
        (dialTLSContext {} ⟨7⟩ exampleServer "tcp" "example.com:443").trace =
          [.dial {} "tcp" "example.com:443", .handshake (tlsOver plainConn serverName),
            .verifyHostname (tlsOver plainConn serverName) (String.mk serverName),
            .write ⟨7⟩ separator, .wrapConnection (tlsOver plainConn serverName) ⟨7⟩] ∧
        Conn.spy (.tlsClient (.plain 1) { ServerName := "example.com" }) ⟨7⟩ =
          .spy (tlsOver plainConn serverName) ⟨7⟩) :=
  ⟨(separator_once_then_tee {} ⟨7⟩ exampleServer "tcp" "example.com:80").2.2.1 _ rfl,
    (separator_once_then_tee {} ⟨7⟩ exampleServer "tcp" "example.com:443").2.2.2 _ rfl⟩

/-- C5. When the value of the one-second timer is the first received from the
race, the TLS dial hook returns the error "TLS handshake timeout" and no
connection, having closed the plain connection, verified no host name,
written no separator and wrapped nothing. -/
theorem handshake_timeout_closes (dialer : Dialer) (writer : Writer) (env : Env)
    (network address : String) (plainConn : Conn) (u : url.URL) (serverName : List Char)
    (hdial : env.DialContext dialer network address = .ok plainConn)
    (hparse : url.Parse ("https://" ++ address) = .ok u)
    (hname : sliceTo u.Host (strings.LastIndex u.Host [':']) = some serverName)
    (hrace : env.race (tlsOver plainConn serverName) = .timer) :
    (dialTLSContext dialer writer env network address).result =
      .ret (.error (.text "TLS handshake timeout")) ∧
    (dialTLSContext dialer writer env network address).trace =
      [.dial dialer network address, .handshake (tlsOver plainConn serverName),
        .close plainConn] ∧
    Event.close plainConn ∈ (dialTLSContext dialer writer env network address).trace ∧
    (∀ c name, Event.verifyHostname c name ∉
      (dialTLSContext dialer writer env network address).trace) ∧
    (∀ w p, Event.write w p ∉ (dialTLSContext dialer writer env network address).trace) ∧
    (∀ c w, Event.wrapConnection c w ∉
      (dialTLSContext dialer writer env network address).trace) := by
  rw [dialTLSContext_run]
  simp [hdial, hparse, hname, hrace, Race.received]

theorem handshake_timeout_closes_witness :
    (dialTLSContext {} ⟨7⟩ slowServer "tcp" "example.com:443").result =
      .ret (.error (.text "TLS handshake timeout")) ∧
    (dialTLSContext {} ⟨7⟩ slowServer "tcp" "example.com:443").trace =
      [.dial {} "tcp" "example.com:443", .handshake (tlsOver (.plain 1) "example.com".data),
        .close (.plain 1)] :=
  have h := handshake_timeout_closes {} ⟨7⟩ slowServer "tcp" "example.com:443" (.plain 1)
    { Scheme := "https".data, Host := "example.com:443".data } "example.com".data rfl rfl rfl rfl
  ⟨h.1, h.2.1⟩

/-- C6. When the handshake's value arrives first and is no error, and
`VerifyHostname` rejects the derived host name, the TLS dial hook returns that
verification error and no connection, having closed the connection, written no
separator and wrapped nothing. -/
theorem mismatch_fails_closed (dialer : Dialer) (writer : Writer) (env : Env)
    (network address : String) (plainConn : Conn) (u : url.URL) (serverName : List Char)
    (err : Error)
    (hdial : env.DialContext dialer network address = .ok plainConn)
    (hparse : url.Parse ("https://" ++ address) = .ok u)
    (hname : sliceTo u.Host (strings.LastIndex u.Host [':']) = some serverName)
    (hrace : env.race (tlsOver plainConn serverName) = .handshake none)
    (hverify : env.VerifyHostname (tlsOver plainConn serverName) (String.mk serverName) =
      some err) :
    (dialTLSContext dialer writer env network address).result = .ret (.error err) ∧
    (dialTLSContext dialer writer env network address).trace =
      [.dial dialer network address, .handshake (tlsOver plainConn serverName),
        .verifyHostname (tlsOver plainConn serverName) (String.mk serverName),
        .close plainConn] ∧
    Event.close plainConn ∈ (dialTLSContext dialer writer env network address).trace ∧
    (∀ w p, Event.write w p ∉ (dialTLSContext dialer writer env network address).trace) ∧
    (∀ c w, Event.wrapConnection c w ∉
      (dialTLSContext dialer writer env network address).trace) := by
  rw [dialTLSContext_run]
  simp [hdial, hparse, hname, hrace, hverify, Race.received]

theorem mismatch_fails_closed_witness :
    (dialTLSContext {} ⟨7⟩ exampleServer "tcp" "wronghost.test:443").result =
      .ret (.error (.text "x509: certificate is valid for example.com")) ∧
    (dialTLSContext {} ⟨7⟩ exampleServer "tcp" "wronghost.test:443").trace =
      [.dial {} "tcp" "wronghost.test:443",
        .handshake (tlsOver (.plain 1) "wronghost.test".data),
        .verifyHostname (tlsOver (.plain 1) "wronghost.test".data) "wronghost.test",
        .close (.plain 1)] :=
  have h := mismatch_fails_closed {} ⟨7⟩ exampleServer "tcp" "wronghost.test:443" (.plain 1)
    { Scheme := "https".data, Host := "wronghost.test:443".data } "wronghost.test".data
    (.text "x509: certificate is valid for example.com") rfl rfl rfl rfl rfl
  ⟨h.1, h.2.1⟩

/-- C8. With a nil dialer the two hooks dial through a dialer of connect
timeout 30s and keep-alive 30s; with a nil transport the client's transport
has compression disabled, TLS handshake timeout 10s, response-header timeout
10s and expect-continue timeout 1s; in every case the transport's plain-dial
and TLS-dial hooks are the two dial procedures, closed over the dialer and the
sink.  `NewClient` is `clientToWriter` on standard error, `NewClientWriter` is
`clientToWriter`. -/
theorem nil_arguments_take_defaults (dialer : Option Dialer) (transport : Option Transport)
    (writer : Writer) :
    dialerOrDefault none = { Timeout := 30000000000, KeepAlive := 30000000000 } ∧
    (clientToWriter none transport writer).Transport.DialContext =
      some (dialContext { Timeout := 30 * Second, KeepAlive := 30 * Second } writer) ∧
    (clientToWriter none transport writer).Transport.DialTLSContext =
      some (dialTLSContext { Timeout := 30 * Second, KeepAlive := 30 * Second } writer) ∧
    (clientToWriter dialer none writer).Transport.DisableCompression = true ∧
    (clientToWriter dialer none writer).Transport.TLSHandshakeTimeout = 10000000000 ∧
    (clientToWriter dialer none writer).Transport.ResponseHeaderTimeout = 10000000000 ∧
    (clientToWriter dialer none writer).Transport.ExpectContinueTimeout = 1000000000 ∧
    (clientToWriter dialer transport writer).Transport.DialContext =
      some (dialContext (dialerOrDefault dialer) writer) ∧
    (clientToWriter dialer transport writer).Transport.DialTLSContext =
      some (dialTLSContext (dialerOrDefault dialer) writer) ∧
    NewClient dialer transport = clientToWriter dialer transport Stderr ∧
    NewClientWriter dialer transport writer = clientToWriter dialer transport writer := by
  have h10 : (10 * Second : Duration) = 10000000000 := by decide
  have h1 : (1 * Second : Duration) = 1000000000 := by decide
  exact ⟨by decide, rfl, rfl, rfl, h10, h10, h1, rfl, rfl, rfl, rfl⟩

/-- C9, as the spec states it, fails: a caller's dialer with connect timeout 5s
and no keep-alive is used as it is, its keep-alive staying zero instead of 30s,
and a caller's transport with only the TLS handshake timeout set keeps its zero
response-header timeout instead of 10s. -/
theorem defaults_not_field_by_field :
    (clientToWriter (some { Timeout := 5 * Second }) none ⟨7⟩).Transport.DialContext =
      some (dialContext { Timeout := 5 * Second, KeepAlive := 0 } ⟨7⟩) ∧
    (dialerOrDefault (some { Timeout := 5 * Second })).KeepAlive ≠ 30 * Second ∧
    (clientToWriter none (some { TLSHandshakeTimeout := 3 * Second })
      ⟨7⟩).Transport.ResponseHeaderTimeout ≠ 10 * Second := by
  refine ⟨rfl, by decide, by decide⟩

/-- C9, amended. Defaults are substituted wholesale: a dialer the caller
supplies is the dialer the hooks use, every field as given, and a transport
the caller supplies keeps every configuration field as given (only its two
dial hooks are set); the defaults are used only for a nil dialer or a nil
transport, and then for all fields together. -/
theorem defaults_wholesale (d : Dialer) (t : Transport) (dialer : Option Dialer)
    (transport : Option Transport) (writer : Writer) :
    dialerOrDefault (some d) = d ∧
    (clientToWriter (some d) transport writer).Transport.DialContext =
      some (dialContext d writer) ∧
    (clientToWriter (some d) transport writer).Transport.DialTLSContext =
      some (dialTLSContext d writer) ∧
    (clientToWriter dialer (some t) writer).Transport.DisableCompression =
      t.DisableCompression ∧
    (clientToWriter dialer (some t) writer).Transport.TLSHandshakeTimeout =
      t.TLSHandshakeTimeout ∧
    (clientToWriter dialer (some t) writer).Transport.ResponseHeaderTimeout =
      t.ResponseHeaderTimeout ∧
    (clientToWriter dialer (some t) writer).Transport.ExpectContinueTimeout =
      t.ExpectContinueTimeout ∧
    (clientToWriter dialer (some t) writer).Transport.TLSClientConfig = t.TLSClientConfig ∧
    dialerOrDefault none = { Timeout := 30 * Second, KeepAlive := 30 * Second } ∧
    (clientToWriter dialer none writer).Transport.DisableCompression = true ∧
    (clientToWriter dialer none writer).Transport.TLSHandshakeTimeout = 10 * Second ∧
    (clientToWriter dialer none writer).Transport.ResponseHeaderTimeout = 10 * Second ∧
    (clientToWriter dialer none writer).Transport.ExpectContinueTimeout = 1 * Second :=
  ⟨rfl, rfl, rfl, rfl, rfl, rfl, rfl, rfl, rfl, rfl, rfl, rfl, rfl⟩

/-- C2 fails on the address-parse path. The address `example.com:https` names
its port by service; with the plain connection open, `url.Parse` rejects the
port, and the TLS dial hook returns that error without closing the connection.
The same happens on `[fe80::1%en0]:443`, an IPv6 address with a zone, whose
`%en` is no escape. -/
theorem parse_failure_leaves_connection_open :
    exampleServer.DialContext {} "tcp" "example.com:https" = .ok (.plain 1) ∧
    dialTLSContext {} ⟨7⟩ exampleServer "tcp" "example.com:https" =
      ⟨[.dial {} "tcp" "example.com:https"],
        .ret (.error (.urlError "parse" "https://example.com:https" (.invalidPort ":https")))⟩ ∧
    Event.close (.plain 1) ∉
      (dialTLSContext {} ⟨7⟩ exampleServer "tcp" "example.com:https").trace ∧
    dialTLSContext {} ⟨7⟩ exampleServer "tcp" "[fe80::1%en0]:443" =
      ⟨[.dial {} "tcp" "[fe80::1%en0]:443"],
        .ret (.error (.urlError "parse" "https://[fe80::1%en0]:443" (.escapeError "%en")))⟩ ∧
    Event.close (.plain 1) ∉
      (dialTLSContext {} ⟨7⟩ exampleServer "tcp" "[fe80::1%en0]:443").trace := by
  have h1 : dialTLSContext {} ⟨7⟩ exampleServer "tcp" "example.com:https" =
      ⟨[.dial {} "tcp" "example.com:https"],
        .ret (.error (.urlError "parse" "https://example.com:https" (.invalidPort ":https")))⟩ :=
    rfl
  have h2 : dialTLSContext {} ⟨7⟩ exampleServer "tcp" "[fe80::1%en0]:443" =
      ⟨[.dial {} "tcp" "[fe80::1%en0]:443"],
        .ret (.error (.urlError "parse" "https://[fe80::1%en0]:443" (.escapeError "%en")))⟩ :=
    rfl
  refine ⟨rfl, h1, ?_, h2, ?_⟩
  · rw [h1]
    simp
  · rw [h2]
    simp

/-- C7 fails. A transport configured with `InsecureSkipVerify` is handed to
the client factory; the TLS dial hook it installs still verifies the host
name, on a new `tls.Config` of its own, and a dial of `wronghost.test:443` to
a server whose certificate is for `example.com` returns the verification
error, the connection closed and never wrapped. -/
theorem skip_verify_not_honoured :
    (NewClientWriter none (some { TLSClientConfig := some { InsecureSkipVerify := true } })
      ⟨7⟩).Transport.DialTLSContext =
      some (dialTLSContext { Timeout := 30 * Second, KeepAlive := 30 * Second } ⟨7⟩) ∧
    (dialTLSContext { Timeout := 30 * Second, KeepAlive := 30 * Second } ⟨7⟩ exampleServer "tcp"
      "wronghost.test:443").result =
      .ret (.error (.text "x509: certificate is valid for example.com")) ∧
    (dialTLSContext { Timeout := 30 * Second, KeepAlive := 30 * Second } ⟨7⟩ exampleServer "tcp"
      "wronghost.test:443").trace =
      [.dial { Timeout := 30 * Second, KeepAlive := 30 * Second } "tcp" "wronghost.test:443",
        .handshake (.tlsClient (.plain 1)
          { ServerName := "wronghost.test", InsecureSkipVerify := false }),
        .verifyHostname (.tlsClient (.plain 1)
          { ServerName := "wronghost.test", InsecureSkipVerify := false }) "wronghost.test",
        .close (.plain 1)] :=
  ⟨rfl, rfl, rfl⟩

/-- C10, as the spec states it, fails. The address `example.com` has no port:
`url.Parse` gives the host `example.com`, `strings.LastIndex` finds no colon
and the slice `u.Host[:-1]` is out of range, so the derivation yields no host
name. The hook reaches it where the dial takes an address without a port, on
the raw IP network `ip4:1`, and panics there; on `tcp` the dial refuses the
address and the hook returns that error before the derivation. -/
theorem portless_address_aborts :
    (url.Parse "https://example.com").map (fun u => u.Host) = .ok "example.com".data ∧
    strings.LastIndex "example.com".data [':'] = -1 ∧
    sliceTo "example.com".data (strings.LastIndex "example.com".data [':']) = none ∧
    dialTLSContext {} ⟨7⟩ rawIPHost "ip4:1" "example.com" =
      ⟨[.dial {} "ip4:1" "example.com"], .panic⟩ ∧
    dialTLSContext {} ⟨7⟩ rawIPHost "tcp" "example.com" =
      ⟨[.dial {} "tcp" "example.com"], .ret (.error (.text "dial: missing port in address"))⟩ :=
  ⟨rfl, rfl, rfl, rfl, rfl⟩

/-- C10, amended. The host-name derivation of the TLS dial hook is total over
the addresses that carry a port suffix: whenever the plain connection is open
and the host `url.Parse` returns contains a colon, the slice does not abort,
the hook does not panic, and the expected certificate name, set as
`cfg.ServerName` for the handshake, is the host up to its last colon. An
address whose parsed host has no colon is outside the derivation: the slice
is out of range there. -/
theorem server_name_needs_port (dialer : Dialer) (writer : Writer) (env : Env)
    (network address : String) (plainConn : Conn) (u : url.URL)
    (hdial : env.DialContext dialer network address = .ok plainConn)
    (hparse : url.Parse ("https://" ++ address) = .ok u) :
    (':' ∈ u.Host →
      ∃ name tail, u.Host = name ++ ':' :: tail ∧ ':' ∉ tail ∧
        sliceTo u.Host (strings.LastIndex u.Host [':']) = some name ∧
        (dialTLSContext dialer writer env network address).result ≠ .panic ∧
        ∃ rest, (dialTLSContext dialer writer env network address).trace =
          .dial dialer network address ::
            .handshake (.tlsClient plainConn
              { ServerName := String.mk name, InsecureSkipVerify := false }) :: rest) ∧
    (':' ∉ u.Host → sliceTo u.Host (strings.LastIndex u.Host [':']) = none) := by
  refine ⟨?_, sliceTo_no_colon⟩
  intro hmem
  obtain ⟨name, tail, hhost, htail⟩ := last_occurrence hmem
  have hname : sliceTo u.Host (strings.LastIndex u.Host [':']) = some name := by
    rw [hhost]
    exact sliceTo_before_last_colon name tail htail
  refine ⟨name, tail, hhost, htail, hname, ?_, ?_⟩
  · rw [dialTLSContext_run]
    simp only [hdial, hparse, hname]
    split
    · simp
    · split <;> simp
  · rw [dialTLSContext_run]
    simp only [hdial, hparse, hname]
    split
    · exact ⟨_, rfl⟩
    · split
      · exact ⟨_, rfl⟩
      · exact ⟨_, rfl⟩

theorem server_name_needs_port_witness :
    ∃ name tail, "example.com:443".data = name ++ ':' :: tail ∧ ':' ∉ tail ∧
      sliceTo "example.com:443".data (strings.LastIndex "example.com:443".data [':']) =
        some name ∧
      (dialTLSContext {} ⟨7⟩ rawIPHost "tcp" "example.com:443").result ≠ .panic ∧
      ∃ rest, (dialTLSContext {} ⟨7⟩ rawIPHost "tcp" "example.com:443").trace =
        .dial {} "tcp" "example.com:443" ::
          .handshake (.tlsClient (.plain 1)
            { ServerName := String.mk name, InsecureSkipVerify := false }) :: rest :=
  (server_name_needs_port {} ⟨7⟩ rawIPHost "tcp" "example.com:443" (.plain 1)
    { Scheme := "https".data, Host := "example.com:443".data } rfl rfl).1 (by decide)

end ClientInspect
